import Mathlib

/-
Verification of the cloud-resume-challenge serverless handlers.

The development shallowly embeds the two handlers of the repository:

* `src/backend/lambda_function.py` and `src/backend/lambda.function.py`
  (the visitor-counter service backed by a DynamoDB table), and
* `src/analytics/analytics_lambda.py`
  (the Athena-backed analytics report generator).

Python strings become Lean `String`, dictionaries with known keys become
structures with `Option` fields (a missing key is `none`), the DynamoDB
record holding the counter becomes `Option Int` (absent record = `none`),
and a Python exception becomes the `none` / `Except.error` branch of the
return type.  Calls to the managed AWS services are represented by their
documented request/response contracts: the atomic `update_item` increment,
an oracle of Athena query statuses, and the fetched result rows.
-/

namespace CloudResume

/-! ## Counter service: data model

`Store` is the state of the single DynamoDB record `id = visitor-count`:
`none` when the record (or its `count` attribute) is absent, `some n` when
the attribute holds `n`.  The incoming event is read only through
`event.get('requestContext', {}).get('http', {}).get('method')`, so the
event model keeps exactly that nested optional structure. -/

abbrev Store := Option Int

structure HttpInfo where
  method : Option String
  deriving DecidableEq, Repr

structure RequestContext where
  http : Option HttpInfo
  deriving DecidableEq, Repr

structure HttpEvent where
  requestContext : Option RequestContext
  deriving DecidableEq, Repr

/-- The chain `event.get('requestContext', {}).get('http', {}).get('method')`:
each missing level collapses to `none`. -/
def eventMethod (e : HttpEvent) : Option String :=
  (e.requestContext.bind (fun rc => rc.http)).bind (fun h => h.method)

structure LambdaResponse where
  statusCode : Nat
  headers : List (String × String)
  body : String
  deriving DecidableEq, Repr

/-- The store operations the counter handler can issue.  The handler uses a
single kind: the one-call conditional update
`SET #count = if_not_exists(#count, :start) + :inc` with `:start = 0`,
`:inc = 1`. -/
inductive StoreOp where
  | updateItemIncr
  deriving DecidableEq, Repr

/-- Semantics of the atomic `table.update_item` call with
`UpdateExpression = 'SET #count = if_not_exists(#count, :start) + :inc'`,
`:start = 0`, `:inc = 1`, `ReturnValues = 'UPDATED_NEW'`: initialise the
attribute to `0` when absent, add `1`, store and return the new value. -/
def update_item (s : Store) : Int × Store :=
  let newCount := s.getD 0 + 1
  (newCount, some newCount)

def applyStoreOp : StoreOp → Store → Store
  | StoreOp.updateItemIncr, s => (update_item s).2

def applyStoreOps (ops : List StoreOp) (s : Store) : Store :=
  ops.foldl (fun st op => applyStoreOp op st) s

/-- `get_cors_headers` of `src/backend/lambda_function.py`. -/
def get_cors_headers : List (String × String) :=
  [("Access-Control-Allow-Origin", "*"),
   ("Access-Control-Allow-Headers", "Content-Type"),
   ("Access-Control-Allow-Methods", "POST, OPTIONS")]

/-- `json.dumps(\x7b'count': count\x7d)` for an integer `count`; Python's
default separators put one space after the colon. -/
def countBody (count : Int) : String :=
  "\x7b\"count\": " ++ toString count ++ "\x7d"

namespace LambdaFunctionPy

/-- `lambda_handler` of `src/backend/lambda_function.py`.  The result also
carries the post-invocation store and the trace of store operations the
invocation performed, so that frame conditions ("never invokes the store")
are statable. -/
def lambda_handler (event : HttpEvent) (store : Store) :
    LambdaResponse × Store × List StoreOp :=
  if eventMethod event = some "OPTIONS" then
    (⟨200, get_cors_headers, ""⟩, store, [])
  else
    let r := update_item store
    (⟨200, get_cors_headers, countBody r.1⟩, r.2, [StoreOp.updateItemIncr])

end LambdaFunctionPy

namespace LambdaDotFunctionPy

/-- `lambda_handler` of `src/backend/lambda.function.py`: identical logic,
with the CORS header dictionary written inline at both return sites instead
of through the helper. -/
def lambda_handler (event : HttpEvent) (store : Store) :
    LambdaResponse × Store × List StoreOp :=
  if eventMethod event = some "OPTIONS" then
    (⟨200,
      [("Access-Control-Allow-Origin", "*"),
       ("Access-Control-Allow-Headers", "Content-Type"),
       ("Access-Control-Allow-Methods", "POST, OPTIONS")], ""⟩, store, [])
  else
    let r := update_item store
    (⟨200,
      [("Access-Control-Allow-Origin", "*"),
       ("Access-Control-Allow-Headers", "Content-Type"),
       ("Access-Control-Allow-Methods", "POST, OPTIONS")], countBody r.1⟩,
     r.2, [StoreOp.updateItemIncr])

end LambdaDotFunctionPy

/-! ## Counter service: fallible store

For the error path the handler is parametrised over the behaviour of the
`update_item` call.  A call that raises is `Except.error`; since the store's
update is a single atomic request, a failed call applies no change, so the
system state after an errored invocation is the original store
(`storeAfter`). -/

def lambda_handler_gen (upd : Store → Except String (Int × Store))
    (event : HttpEvent) (store : Store) :
    Except String (LambdaResponse × Store) :=
  if eventMethod event = some "OPTIONS" then
    Except.ok (⟨200, get_cors_headers, ""⟩, store)
  else
    match upd store with
    | Except.error e => Except.error e
    | Except.ok (count, store') =>
        Except.ok (⟨200, get_cors_headers, countBody count⟩, store')

/-- The store the system holds after an invocation: the handler's new store
on success, the untouched original on an uncaught exception. -/
def storeAfter (r : Except String (LambdaResponse × Store)) (s : Store) : Store :=
  match r with
  | Except.ok (_, s') => s'
  | Except.error _ => s

/-! ## Interleavings

`Merge threads out` holds when `out` is an interleaving of the given
threads: it is built by repeatedly removing the head of any one thread
(reordering of the thread list is immaterial, captured by `perm`). -/

inductive Merge : List (List StoreOp) → List StoreOp → Prop where
  | done : Merge [] []
  | skip {ts out} : Merge ts out → Merge ([] :: ts) out
  | take {a rest ts out} : Merge (rest :: ts) out → Merge ((a :: rest) :: ts) (a :: out)
  | perm {ts₁ ts₂ out} : ts₁.Perm ts₂ → Merge ts₂ out → Merge ts₁ out

/-! ## String utilities modelling the Python primitives used by
`src/analytics/analytics_lambda.py` -/

/-- Python `str.split` with a one-character separator, on character lists:
it always yields at least one piece, and `[]` splits to `[[]]`. -/
def splitChar (sep : Char) : List Char → List (List Char)
  | [] => [[]]
  | c :: cs =>
    match splitChar sep cs with
    | [] => if c = sep then [[], []] else [[c]]
    | h :: t => if c = sep then [] :: h :: t else (c :: h) :: t

/-- Python `str.split(sep)` for a one-character separator. -/
def pySplit (s : String) (sep : Char) : List String :=
  (splitChar sep s.data).map (fun cs => ⟨cs⟩)

/-- Python `str.strip()` with no argument: drop leading and trailing
whitespace. -/
def stripChars (cs : List Char) : List Char :=
  ((cs.dropWhile Char.isWhitespace).reverse.dropWhile Char.isWhitespace).reverse

def pyStrip (s : String) : String := ⟨stripChars s.data⟩

/-- Python `sep.join(xs)`. -/
def pyJoin (sep : String) : List String → String
  | [] => ""
  | [s] => s
  | s :: rest => s ++ sep ++ pyJoin sep rest

/-! ## Analytics: denylist clause (`build_ip_filter`) -/

/-- `FILTERED_IPS = os.environ['FILTERED_IPS'].split(',')`: the configured
comma-separated denylist, as the module reads it from the environment.
Note `split` of any string, the empty one included, is non-empty. -/
def FILTERED_IPS (env : String) : List String := pySplit env ','

/-- `build_ip_filter` of `src/analytics/analytics_lambda.py`:
`"(" + ", ".join([f"'\x7bip.strip()\x7d'" for ip in FILTERED_IPS]) + ")"`. -/
def build_ip_filter (ips : List String) : String :=
  "(" ++ pyJoin ", " (ips.map (fun ip => "'" ++ pyStrip ip ++ "'")) ++ ")"

/-- A single-quoted SQL string literal: a quote, a body with no quote in
it, a quote. -/
def QuotedLit (l : String) : Prop :=
  ∃ body : String, (∀ c ∈ body.data, c ≠ '\'') ∧ l = "'" ++ body ++ "'"

/-- Syntactic well-formedness of a SQL IN-list: an opening parenthesis, a
non-empty comma-space-separated sequence of quoted string literals, a
closing parenthesis. -/
def WellFormedInList (s : String) : Prop :=
  ∃ lits : List String, lits ≠ [] ∧ (∀ l ∈ lits, QuotedLit l) ∧
    s = "(" ++ pyJoin ", " lits ++ ")"

/-- The semantics of the generated clause `c_ip NOT IN (...)`: the set of
addresses it excludes is the set of stripped denylist entries. -/
def inClauseExcludes (ips : List String) (addr : String) : Bool :=
  (ips.map pyStrip).contains addr

/-! ## Analytics: result rows and section formatters

An Athena result row is its `Data` list; each cell holds an optional
`VarCharValue` (`none` when the column is null and the key absent).  A
formatter that indexes past the end of a list or reads an absent
`VarCharValue` without a default raises in Python; those runs are `none`
here. -/

abbrev Cell := Option String

abbrev AthenaRow := List Cell

/-- `format_overview`: on more than one row, the three counts are read
positionally from the first data row (`data[1]['Data'][0..2]['VarCharValue']`,
each a direct access). -/
def format_overview (data : List AthenaRow) : Option String :=
  if 1 < data.length then
    match data.get? 1 with
    | none => none
    | some row =>
      match (row.get? 0).join, (row.get? 1).join, (row.get? 2).join with
      | some total, some unique, some days =>
          some ("Total Visits: " ++ total ++ "\nUnique Visitors: " ++ unique ++
            "\nDays Tracked: " ++ days)
      | _, _, _ => none
  else some "No traffic data available."

/-- `format_yesterday`: two counts read positionally from the first data
row. -/
def format_yesterday (data : List AthenaRow) : Option String :=
  if 1 < data.length then
    match data.get? 1 with
    | none => none
    | some row =>
      match (row.get? 0).join, (row.get? 1).join with
      | some visits, some unique =>
          some ("Visits: " ++ visits ++ "\nUnique Visitors: " ++ unique)
      | _, _ => none
  else some "No traffic yesterday."

/-- One line of the three list formatters: `row['Data'][0]` and
`row['Data'][1]` must exist (else IndexError, `none`); an absent
`VarCharValue` defaults to `N/A` for the key and `0` for the count;
`unit` is `" visits"` or `" requests"`. -/
def lineKV (row : AthenaRow) (unit : String) : Option String :=
  match row.get? 0, row.get? 1 with
  | some keyCell, some countCell =>
      some (keyCell.getD "N/A" ++ ": " ++ countCell.getD "0" ++ unit)
  | _, _ => none

/-- The `for row in data[1:]` loop body accumulating lines in order. -/
def renderRows (line : AthenaRow → Option String) : List AthenaRow → Option (List String)
  | [] => some []
  | r :: rs =>
    match line r, renderRows line rs with
    | some s, some ss => some (s :: ss)
    | _, _ => none

/-- `format_top_pages`: one `<uri>: <visits> visits` line per data row,
joined with newlines. -/
def format_top_pages (data : List AthenaRow) : Option String :=
  if 1 < data.length then
    (renderRows (fun row => lineKV row " visits") (data.drop 1)).map (pyJoin "\n")
  else some "No page data."

/-- `format_geo_distribution`: one `<location>: <requests> requests` line
per data row. -/
def format_geo_distribution (data : List AthenaRow) : Option String :=
  if 1 < data.length then
    (renderRows (fun row => lineKV row " requests") (data.drop 1)).map (pyJoin "\n")
  else some "No geographic data."

/-- `format_top_visitors`: one `<ip>: <visits> visits` line per data
row. -/
def format_top_visitors (data : List AthenaRow) : Option String :=
  if 1 < data.length then
    (renderRows (fun row => lineKV row " visits") (data.drop 1)).map (pyJoin "\n")
  else some "No visitor data."

/-- The line the top-pages section renders for one data row, as the spec
states it: `<uri>: <visits> visits`, with `N/A` / `0` defaults. -/
def topPagesLine (row : AthenaRow) : String :=
  ((row.get? 0).join.getD "N/A") ++ ": " ++ ((row.get? 1).join.getD "0") ++ " visits"

/-- The lines of a report section: the text split at newline characters. -/
def linesOf (s : String) : List String := pySplit s '\n'

/-- `true` when the cell's value, if present, holds no newline. -/
def cellHasNoNewline : Option String → Bool
  | none => true
  | some s => !s.data.contains '\n'

/-! ## Analytics: query polling (`execute_query`)

`execute_query` submits a query, then runs `for i in range(30)`: read the
execution state, break on a terminal one, else sleep one time unit.  After
the loop, only a final `SUCCEEDED` state fetches the result rows; every
other outcome yields `[]`.  Athena is modelled by an oracle `status` giving
the state observed at the n-th check, and by the rows `get_query_results`
would return. -/

/-- The terminal states tested by
`if status in ['SUCCEEDED', 'FAILED', 'CANCELLED']`. -/
def terminalStates : List String := ["SUCCEEDED", "FAILED", "CANCELLED"]

/-- The value of the `status` variable when the poll loop exits, polling
from check index `i` with the given number of iterations remaining: each
iteration reads the status and breaks on a terminal one, and the last
iteration's read stands either way.  The `0` case is never reached from
the loop bound 30. -/
def pollFinalStatus (status : Nat → String) (i : Nat) : Nat → String
  | 0 => ""
  | 1 => status i
  | attempts + 2 =>
      if status i ∈ terminalStates then status i
      else pollFinalStatus status (i + 1) (attempts + 1)

/-- How many `get_query_execution` status checks the loop performs. -/
def pollChecks (status : Nat → String) (i : Nat) : Nat → Nat
  | 0 => 0
  | attempts + 1 =>
      if status i ∈ terminalStates then 1
      else 1 + pollChecks status (i + 1) attempts

/-- `execute_query`: poll up to 30 times from check 0; fetch and return
the full result set only when the final observed state is `SUCCEEDED`,
otherwise return the empty result set. -/
def execute_query (status : Nat → String) (resultRows : List AthenaRow) :
    List AthenaRow :=
  if pollFinalStatus status 0 30 = "SUCCEEDED" then resultRows else []

/-! ## Supporting lemmas -/

theorem Merge.perm_flatten {ts : List (List StoreOp)} {out : List StoreOp}
    (h : Merge ts out) : out.Perm ts.flatten := by
  induction h with
  | done => simp
  | skip _ ih => simpa using ih
  | @take a rest ts' out' _ ih =>
      have h2 : (a :: out').Perm (a :: (rest :: ts').flatten) := ih.cons a
      simpa using h2
  | perm hp _ ih => exact ih.trans hp.flatten.symm

theorem applyStoreOps_replicate (n : Nat) (k : Int) :
    applyStoreOps (List.replicate n StoreOp.updateItemIncr) (some k) = some (k + n) := by
  induction n generalizing k with
  | zero => simp [applyStoreOps]
  | succ m ih =>
      have : applyStoreOps (List.replicate (m + 1) StoreOp.updateItemIncr) (some k)
          = applyStoreOps (List.replicate m StoreOp.updateItemIncr) (some (k + 1)) := by
        simp [applyStoreOps, List.replicate_succ, applyStoreOp, update_item]
      rw [this, ih]
      congr 1
      push_cast
      ring

theorem splitChar_ne_nil (sep : Char) (cs : List Char) : splitChar sep cs ≠ [] := by
  cases cs with
  | nil => simp [splitChar]
  | cons a t =>
      cases h : splitChar sep t <;> by_cases ha : a = sep <;>
        simp [splitChar, h, ha]

theorem mem_of_mem_splitChar {sep : Char} {cs part : List Char}
    (hp : part ∈ splitChar sep cs) {c : Char} (hc : c ∈ part) : c ∈ cs := by
  induction cs generalizing part with
  | nil =>
      simp [splitChar] at hp
      subst hp
      simp at hc
  | cons a t ih =>
      cases h : splitChar sep t with
      | nil => exact absurd h (splitChar_ne_nil sep t)
      | cons hd tl =>
          by_cases ha : a = sep
          · simp [splitChar, h, ha] at hp
            rcases hp with hp | hp
            · subst hp; simp at hc
            · have : part ∈ splitChar sep t := by rw [h]; simpa using hp
              exact List.mem_cons_of_mem a (ih this hc)
          · simp [splitChar, h, ha] at hp
            rcases hp with hp | hp
            · subst hp
              rcases List.mem_cons.mp hc with hc | hc
              · exact hc ▸ List.mem_cons_self a t
              · have : hd ∈ splitChar sep t := by rw [h]; exact List.mem_cons_self hd tl
                exact List.mem_cons_of_mem a (ih this hc)
            · have : part ∈ splitChar sep t := by rw [h]; exact List.mem_cons_of_mem hd hp
              exact List.mem_cons_of_mem a (ih this hc)

theorem mem_of_mem_stripChars {cs : List Char} {c : Char} (h : c ∈ stripChars cs) :
    c ∈ cs := by
  unfold stripChars at h
  rw [List.mem_reverse] at h
  have h1 := (List.dropWhile_sublist (l := (cs.dropWhile Char.isWhitespace).reverse)
    (p := Char.isWhitespace)).mem h
  rw [List.mem_reverse] at h1
  exact (List.dropWhile_sublist (l := cs) (p := Char.isWhitespace)).mem h1

theorem splitChar_of_not_mem {sep : Char} {cs : List Char} (h : sep ∉ cs) :
    splitChar sep cs = [cs] := by
  induction cs with
  | nil => rfl
  | cons a t ih =>
      simp only [List.mem_cons, not_or] at h
      have ha : ¬ a = sep := fun he => h.1 he.symm
      simp [splitChar, ih h.2, ha]

theorem splitChar_append {sep : Char} {l rest : List Char} (h : sep ∉ l) :
    splitChar sep (l ++ sep :: rest) = l :: splitChar sep rest := by
  induction l with
  | nil =>
      obtain ⟨h0, t0, he⟩ := List.exists_cons_of_ne_nil (splitChar_ne_nil sep rest)
      simp [splitChar, he]
  | cons a t ih =>
      simp only [List.mem_cons, not_or] at h
      have ha : ¬ a = sep := fun he => h.1 he.symm
      simp [splitChar, ih h.2, ha]

theorem linesOf_pyJoin (xs : List String) (hne : xs ≠ [])
    (hnl : ∀ x ∈ xs, '\n' ∉ x.data) :
    linesOf (pyJoin "\n" xs) = xs := by
  induction xs with
  | nil => cases hne rfl
  | cons x rest ih =>
      cases rest with
      | nil =>
          have h1 : '\n' ∉ x.data := hnl x (List.mem_cons_self x [])
          show (splitChar '\n' x.data).map (fun cs => (⟨cs⟩ : String)) = [x]
          rw [splitChar_of_not_mem h1]
          rfl
      | cons y rest' =>
          have hx : '\n' ∉ x.data := hnl x (List.mem_cons_self _ _)
          have hrest : ∀ z ∈ y :: rest', '\n' ∉ z.data :=
            fun z hz => hnl z (List.mem_cons_of_mem x hz)
          have hdata : (x ++ "\n" ++ pyJoin "\n" (y :: rest')).data
              = x.data ++ '\n' :: (pyJoin "\n" (y :: rest')).data := by
            rw [String.data_append, String.data_append, List.append_assoc]
            rfl
          calc linesOf (pyJoin "\n" (x :: y :: rest'))
              = (splitChar '\n' (x ++ "\n" ++ pyJoin "\n" (y :: rest')).data).map
                  (fun cs => (⟨cs⟩ : String)) := rfl
            _ = (splitChar '\n'
                  (x.data ++ '\n' :: (pyJoin "\n" (y :: rest')).data)).map
                  (fun cs => (⟨cs⟩ : String)) := by rw [hdata]
            _ = (x.data :: splitChar '\n' (pyJoin "\n" (y :: rest')).data).map
                  (fun cs => (⟨cs⟩ : String)) := by rw [splitChar_append hx]
            _ = x :: linesOf (pyJoin "\n" (y :: rest')) := rfl
            _ = x :: y :: rest' := by rw [ih (by simp) hrest]

theorem renderRows_eq (u : String) (rows : List AthenaRow)
    (h : ∀ r ∈ rows, 2 ≤ r.length) :
    renderRows (fun row => lineKV row u) rows
      = some (rows.map (fun row =>
          ((row.get? 0).join.getD "N/A") ++ ": " ++
            ((row.get? 1).join.getD "0") ++ u)) := by
  induction rows with
  | nil => rfl
  | cons r rs ih =>
      have hr : 2 ≤ r.length := h r (List.mem_cons_self r rs)
      have hline : lineKV r u = some (((r.get? 0).join.getD "N/A") ++ ": " ++
          ((r.get? 1).join.getD "0") ++ u) := by
        match r, hr with
        | a :: b :: rest, _ => simp [lineKV]
      simp [renderRows, hline, ih (fun r' hr' => h r' (List.mem_cons_of_mem _ hr'))]

theorem not_mem_data_append {c : Char} {a b : String} (ha : c ∉ a.data)
    (hb : c ∉ b.data) : c ∉ (a ++ b).data := by
  rw [String.data_append a b]
  intro hm
  rcases List.mem_append.mp hm with hm | hm
  · exact ha hm
  · exact hb hm

theorem no_newline_getD {c : Option String} (h : cellHasNoNewline c = true)
    {d : String} (hd : '\n' ∉ d.data) : '\n' ∉ (c.getD d).data := by
  cases c with
  | none => simpa using hd
  | some s =>
      simp only [cellHasNoNewline, List.contains, Bool.not_eq_eq_eq_not,
        Bool.not_true, List.elem_eq_mem, decide_eq_false_iff_not] at h
      simpa using h

/-! ## Counter service: claim theorems -/

/-- C4: every request whose method is `OPTIONS` yields status 200, empty
body and the fixed permissive CORS headers, the store is unchanged and no
store operation is performed. -/
theorem counter_preflight_no_store_call (e : HttpEvent) (s : Store)
    (h : eventMethod e = some "OPTIONS") :
    LambdaFunctionPy.lambda_handler e s = (⟨200, get_cors_headers, ""⟩, s, []) := by
  simp [LambdaFunctionPy.lambda_handler, h]

theorem counter_preflight_no_store_call_witness :
    eventMethod ⟨some ⟨some ⟨some "OPTIONS"⟩⟩⟩ = some "OPTIONS" ∧
      LambdaFunctionPy.lambda_handler ⟨some ⟨some ⟨some "OPTIONS"⟩⟩⟩ (some 7) =
        (⟨200, get_cors_headers, ""⟩, some 7, []) :=
  ⟨rfl, counter_preflight_no_store_call ⟨some ⟨some ⟨some "OPTIONS"⟩⟩⟩ (some 7) rfl⟩

/-- C5: every non-`OPTIONS` request performs exactly one atomic
increment-or-initialise store operation and returns status 200 with body
`countBody` of the post-increment value; three sequential invocations from
an absent record produce the bodies for counts 1, 2 and 3. -/
theorem counter_increment_once_and_scenario (e : HttpEvent) (s : Store)
    (h : eventMethod e ≠ some "OPTIONS") :
    (LambdaFunctionPy.lambda_handler e s =
       (⟨200, get_cors_headers, countBody (s.getD 0 + 1)⟩,
        some (s.getD 0 + 1), [StoreOp.updateItemIncr])) ∧
    (LambdaFunctionPy.lambda_handler e none).1.body = "\x7b\"count\": 1\x7d" ∧
    (LambdaFunctionPy.lambda_handler e
       ((LambdaFunctionPy.lambda_handler e none).2.1)).1.body = "\x7b\"count\": 2\x7d" ∧
    (LambdaFunctionPy.lambda_handler e
       ((LambdaFunctionPy.lambda_handler e
          ((LambdaFunctionPy.lambda_handler e none).2.1)).2.1)).1.body =
      "\x7b\"count\": 3\x7d" := by
  have hstep : ∀ t : Store, LambdaFunctionPy.lambda_handler e t =
      (⟨200, get_cors_headers, countBody (t.getD 0 + 1)⟩,
       some (t.getD 0 + 1), [StoreOp.updateItemIncr]) := by
    intro t
    simp [LambdaFunctionPy.lambda_handler, h, update_item]
  refine ⟨hstep s, ?_, ?_, ?_⟩ <;> simp [hstep] <;> decide

theorem counter_increment_once_and_scenario_witness :
    eventMethod (⟨some ⟨some ⟨some "POST"⟩⟩⟩ : HttpEvent) ≠ some "OPTIONS" ∧
      LambdaFunctionPy.lambda_handler ⟨some ⟨some ⟨some "POST"⟩⟩⟩ (some 4) =
        (⟨200, get_cors_headers, countBody 5⟩, some 5, [StoreOp.updateItemIncr]) :=
  ⟨by decide,
   (counter_increment_once_and_scenario ⟨some ⟨some ⟨some "POST"⟩⟩⟩ (some 4)
     (by decide)).1⟩

/-- C6: when the store call raises, a non-`OPTIONS` invocation propagates
the exception uncaught (the handler's result is that error, no response is
produced) and the system's store after the failed invocation is the
original store. -/
theorem counter_store_fault_propagates (upd : Store → Except String (Int × Store))
    (e : HttpEvent) (s : Store) (err : String)
    (hm : eventMethod e ≠ some "OPTIONS") (hu : upd s = Except.error err) :
    lambda_handler_gen upd e s = Except.error err ∧
      storeAfter (lambda_handler_gen upd e s) s = s := by
  simp [lambda_handler_gen, hm, hu, storeAfter]

theorem counter_store_fault_propagates_witness :
    lambda_handler_gen (fun _ => Except.error "boom") ⟨none⟩ (some 3) =
        Except.error "boom" ∧
      storeAfter (lambda_handler_gen (fun _ => Except.error "boom") ⟨none⟩ (some 3))
        (some 3) = some 3 :=
  counter_store_fault_propagates (fun _ => Except.error "boom") ⟨none⟩ (some 3) "boom"
    (by decide) rfl

/-- C10: the handlers of `src/backend/lambda_function.py` and
`src/backend/lambda.function.py` are extensionally equal: same response,
same resulting store, same store-operation trace, on every event and
store. -/
theorem backend_handlers_extensionally_equal (e : HttpEvent) (s : Store) :
    LambdaFunctionPy.lambda_handler e s = LambdaDotFunctionPy.lambda_handler e s := rfl

/-- C1: for any list of non-`OPTIONS` invocations and any interleaving of
the store operations they perform, a counter starting at 0 ends at exactly
the number of invocations: each invocation's store trace is the single
atomic conditional update, so no increment is lost. -/
theorem counter_concurrent_increments (events : List HttpEvent) (ops : List StoreOp)
    (hm : ∀ e ∈ events, eventMethod e ≠ some "OPTIONS")
    (hi : Merge
      (events.map (fun e => (LambdaFunctionPy.lambda_handler e (some 0)).2.2)) ops) :
    applyStoreOps ops (some 0) = some (events.length : Int) := by
  have hthreads : events.map (fun e => (LambdaFunctionPy.lambda_handler e (some 0)).2.2)
      = events.map (fun _ => [StoreOp.updateItemIncr]) := by
    refine List.map_congr_left ?_
    intro e he
    simp [LambdaFunctionPy.lambda_handler, hm e he]
  have hflat : (events.map (fun _ => [StoreOp.updateItemIncr])).flatten
      = List.replicate events.length StoreOp.updateItemIncr := by
    induction events with
    | nil => rfl
    | cons a l ih => simp [List.replicate_succ] at ih ⊢
  have hperm : ops.Perm (List.replicate events.length StoreOp.updateItemIncr) := by
    have := hi.perm_flatten
    rw [hthreads, hflat] at this
    exact this
  have hops : ops = List.replicate events.length StoreOp.updateItemIncr :=
    List.eq_replicate_iff.mpr
      ⟨by simpa using hperm.length_eq, fun b _ => by cases b; rfl⟩
  rw [hops, applyStoreOps_replicate]
  simp

theorem counter_concurrent_increments_witness :
    (∀ e ∈ ([⟨some ⟨some ⟨some "POST"⟩⟩⟩, ⟨none⟩] : List HttpEvent),
        eventMethod e ≠ some "OPTIONS") ∧
      applyStoreOps [StoreOp.updateItemIncr, StoreOp.updateItemIncr] (some 0) =
        some 2 := by
  refine ⟨by decide, ?_⟩
  have h := counter_concurrent_increments
    [⟨some ⟨some ⟨some "POST"⟩⟩⟩, ⟨none⟩]
    [StoreOp.updateItemIncr, StoreOp.updateItemIncr]
    (by decide)
    (by
      have hm : List.map (fun e => (LambdaFunctionPy.lambda_handler e (some 0)).2.2)
          ([⟨some ⟨some ⟨some "POST"⟩⟩⟩, ⟨none⟩] : List HttpEvent)
          = [[StoreOp.updateItemIncr], [StoreOp.updateItemIncr]] := rfl
      rw [hm]
      exact Merge.take (Merge.skip (Merge.take (Merge.skip Merge.done))))
  simpa using h

/-! ## Analytics: denylist claim theorem -/

/-- C2: for every configured denylist whose text holds no quote character
(addresses never do), the clause `build_ip_filter` produces from it is a
syntactically well-formed SQL IN-list; the configuration with no addresses
(`FILTERED_IPS` environment value `""`) still yields the well-formed clause
`('')`, whose exclusion set contains no actual (non-empty) address. -/
theorem build_ip_filter_wellformed (env : String)
    (hq : ∀ c ∈ env.data, c ≠ '\'') :
    WellFormedInList (build_ip_filter (FILTERED_IPS env)) ∧
      build_ip_filter (FILTERED_IPS "") = "('')" ∧
      ∀ addr : String, addr ≠ "" → inClauseExcludes (FILTERED_IPS "") addr = false := by
  refine ⟨?_, by decide, ?_⟩
  · refine ⟨(FILTERED_IPS env).map (fun ip => "'" ++ pyStrip ip ++ "'"), ?_, ?_, rfl⟩
    · have h1 : splitChar ',' env.data ≠ [] := splitChar_ne_nil ',' env.data
      simp [FILTERED_IPS, pySplit]
      exact h1
    · intro l hl
      rcases List.mem_map.mp hl with ⟨ip, hip, rfl⟩
      refine ⟨pyStrip ip, ?_, rfl⟩
      intro c hc
      have hc1 : c ∈ ip.data := mem_of_mem_stripChars hc
      rcases List.mem_map.mp hip with ⟨cs, hcs, rfl⟩
      exact hq c (mem_of_mem_splitChar hcs hc1)
  · intro addr haddr
    have h0 : FILTERED_IPS "" = [""] := by decide
    rw [h0]
    simp [inClauseExcludes, pyStrip, stripChars]
    exact haddr

theorem build_ip_filter_wellformed_witness :
    (∀ c ∈ ("1.2.3.4, 10.0.0.1" : String).data, c ≠ '\'') ∧
      WellFormedInList (build_ip_filter (FILTERED_IPS "1.2.3.4, 10.0.0.1")) :=
  ⟨by decide, (build_ip_filter_wellformed "1.2.3.4, 10.0.0.1" (by decide)).1⟩

/-! ## Analytics: claim theorems on the formatters -/

/-- C7: each of the five section formatters, on a result set with zero or
one rows (header only or nothing), returns its fixed "no data" sentence,
whatever the rows contain. -/
theorem formatters_no_data (data : List AthenaRow) (h : data.length ≤ 1) :
    format_overview data = some "No traffic data available." ∧
      format_yesterday data = some "No traffic yesterday." ∧
      format_top_pages data = some "No page data." ∧
      format_geo_distribution data = some "No geographic data." ∧
      format_top_visitors data = some "No visitor data." := by
  have h1 : ¬ 1 < data.length := by omega
  refine ⟨?_, ?_, ?_, ?_, ?_⟩ <;>
    simp [format_overview, format_yesterday, format_top_pages,
      format_geo_distribution, format_top_visitors, h1]

theorem formatters_no_data_witness :
    ([[Option.none, some "x"]] : List AthenaRow).length ≤ 1 ∧
      format_overview [[Option.none, some "x"]] = some "No traffic data available." ∧
      format_top_pages [[Option.none, some "x"]] = some "No page data." :=
  ⟨by decide,
   (formatters_no_data [[Option.none, some "x"]] (by decide)).1,
   (formatters_no_data [[Option.none, some "x"]] (by decide)).2.2.1⟩

/-- C8: on a result set with at least one data row, each data row having
its two cells and no newline inside their values, the top-pages formatter
returns one line per data row, in input order, each line
`<uri>: <visits> visits` with `N/A` / `0` defaults for absent values. -/
theorem format_top_pages_line_per_row (data : List AthenaRow)
    (hlen : 1 < data.length)
    (hrows : ∀ row ∈ data.drop 1, 2 ≤ row.length)
    (hnl : ∀ row ∈ data.drop 1,
      cellHasNoNewline ((row.get? 0).join) = true ∧
        cellHasNoNewline ((row.get? 1).join) = true) :
    (format_top_pages data).map linesOf = some ((data.drop 1).map topPagesLine) := by
  have hr := renderRows_eq " visits" (data.drop 1) hrows
  rw [format_top_pages, if_pos hlen, hr]
  show some (linesOf (pyJoin "\n" _)) = _
  rw [linesOf_pyJoin]
  · rfl
  · intro hd
    have hlen2 := congrArg List.length hd
    simp at hlen2
    omega
  · intro x hx
    rcases List.mem_map.mp hx with ⟨row, hrow, rfl⟩
    have hA : '\n' ∉ ((row.get? 0).join.getD "N/A").data :=
      no_newline_getD (hnl row hrow).1 (by decide)
    have hB : '\n' ∉ ((row.get? 1).join.getD "0").data :=
      no_newline_getD (hnl row hrow).2 (by decide)
    exact not_mem_data_append
      (not_mem_data_append (not_mem_data_append hA (by decide)) hB) (by decide)

theorem format_top_pages_line_per_row_witness :
    (1 < ([[some "uri", some "visits"],
           [some "/index.html", some "42"],
           [Option.none, Option.none]] : List AthenaRow).length) ∧
      (format_top_pages
          [[some "uri", some "visits"],
           [some "/index.html", some "42"],
           [Option.none, Option.none]]).map linesOf =
        some ["/index.html: 42 visits", "N/A: 0 visits"] := by
  refine ⟨by decide, ?_⟩
  have h := format_top_pages_line_per_row
    [[some "uri", some "visits"], [some "/index.html", some "42"],
     [Option.none, Option.none]]
    (by decide) (by decide) (by decide)
  rw [h]
  rfl

/-- C9: the overview formatter reads its three counts positionally from
the first data row, and on the spec's example rows renders exactly the
three labeled lines. -/
theorem format_overview_positional :
    (∀ (hdr : AthenaRow) (t u d : String) (rest : List Cell)
        (tail : List AthenaRow),
        format_overview (hdr :: (some t :: some u :: some d :: rest) :: tail)
          = some ("Total Visits: " ++ t ++ "\nUnique Visitors: " ++ u ++
              "\nDays Tracked: " ++ d)) ∧
      format_overview
          [[some "total_visits", some "unique_visitors", some "days_tracked"],
           [some "42", some "10", some "5"]]
        = some "Total Visits: 42\nUnique Visitors: 10\nDays Tracked: 5" := by
  constructor
  · intro hdr t u d rest tail
    simp [format_overview]
  · decide

/-! ## Analytics: poll-loop lemmas and claim theorem -/

theorem pollChecks_le (status : Nat → String) :
    ∀ (n i : Nat), pollChecks status i n ≤ n := by
  intro n
  induction n with
  | zero => intro i; simp [pollChecks]
  | succ m ih =>
      intro i
      by_cases h : status i ∈ terminalStates
      · simp [pollChecks, h]
      · have := ih (i + 1)
        simp [pollChecks, h]
        omega

theorem pollChecks_nonterminal (status : Nat → String) :
    ∀ (n i : Nat), (∀ j, j < n → status (i + j) ∉ terminalStates) →
      pollChecks status i n = n := by
  intro n
  induction n with
  | zero => intro i _; rfl
  | succ m ih =>
      intro i h
      have h0 : status i ∉ terminalStates := by simpa using h 0 (by omega)
      have hrec : pollChecks status (i + 1) m = m := by
        refine ih (i + 1) ?_
        intro j hj
        have := h (j + 1) (by omega)
        rwa [show i + (j + 1) = i + 1 + j by omega] at this
      simp [pollChecks, h0, hrec]
      omega

theorem pollFinalStatus_nonterminal (status : Nat → String) :
    ∀ (n i : Nat), 1 ≤ n → (∀ j, j < n → status (i + j) ∉ terminalStates) →
      pollFinalStatus status i n = status (i + (n - 1)) := by
  intro n
  induction n with
  | zero => intro i h; omega
  | succ m ih =>
      intro i _ h
      cases m with
      | zero => simp [pollFinalStatus]
      | succ m' =>
          have h0 : status i ∉ terminalStates := by simpa using h 0 (by omega)
          have hrec := ih (i + 1) (by omega) (fun j hj => by
            have := h (j + 1) (by omega)
            rwa [show i + (j + 1) = i + 1 + j by omega] at this)
          rw [pollFinalStatus, if_neg h0, hrec]
          congr 1
          omega

theorem poll_early_stop (status : Nat → String) :
    ∀ (j n i : Nat), j < n → status (i + j) ∈ terminalStates →
      (∀ k, k < j → status (i + k) ∉ terminalStates) →
      pollChecks status i n = j + 1 ∧
        pollFinalStatus status i n = status (i + j) := by
  intro j
  induction j with
  | zero =>
      intro n i hn ht _
      simp only [Nat.add_zero] at ht ⊢
      cases n with
      | zero => omega
      | succ m =>
          refine ⟨by simp [pollChecks, ht], ?_⟩
          cases m with
          | zero => rfl
          | succ m' => simp [pollFinalStatus, ht]
  | succ j' ih =>
      intro n i hn ht hk
      have h0 : status i ∉ terminalStates := by simpa using hk 0 (by omega)
      cases n with
      | zero => omega
      | succ m =>
          cases m with
          | zero => omega
          | succ m' =>
              have ih' := ih (m' + 1) (i + 1) (by omega)
                (by rwa [show i + 1 + j' = i + (j' + 1) by omega])
                (fun k hkk => by
                  rw [show i + 1 + k = i + (k + 1) by omega]
                  exact hk (k + 1) (by omega))
              constructor
              · have hstep : pollChecks status i (m' + 1 + 1)
                    = 1 + pollChecks status (i + 1) (m' + 1) := by
                  simp [pollChecks, h0]
                rw [hstep, ih'.1]
                omega
              · rw [pollFinalStatus, if_neg h0, ih'.2]
                congr 1
                omega

/-- C3: the poll loop of `execute_query` performs at most 30 status
checks; with no terminal state in the first 30 it performs exactly 30 and
the query yields the empty result set; it stops right after the first
terminal state, which is the final one observed; and the full result set
is returned exactly when the final state is `SUCCEEDED`, the empty one in
every other case. -/
theorem execute_query_poll_bounded (status : Nat → String) (rows : List AthenaRow) :
    pollChecks status 0 30 ≤ 30 ∧
      ((∀ j, j < 30 → status j ∉ terminalStates) →
        pollChecks status 0 30 = 30 ∧ execute_query status rows = []) ∧
      (∀ j, j < 30 → status j ∈ terminalStates →
        (∀ k, k < j → status k ∉ terminalStates) →
        pollChecks status 0 30 = j + 1 ∧ pollFinalStatus status 0 30 = status j) ∧
      (pollFinalStatus status 0 30 = "SUCCEEDED" → execute_query status rows = rows) ∧
      (pollFinalStatus status 0 30 ≠ "SUCCEEDED" → execute_query status rows = []) := by
  refine ⟨pollChecks_le status 30 0, ?_, ?_, ?_, ?_⟩
  · intro h
    have h' : ∀ j, j < 30 → status (0 + j) ∉ terminalStates := by simpa using h
    refine ⟨pollChecks_nonterminal status 30 0 h', ?_⟩
    have hfin := pollFinalStatus_nonterminal status 30 0 (by omega) h'
    have h29 : status (0 + (30 - 1)) ∉ terminalStates := h' 29 (by omega)
    have hne : ¬ pollFinalStatus status 0 30 = "SUCCEEDED" := by
      rw [hfin]
      intro hs
      exact h29 (by rw [hs]; decide)
    rw [execute_query, if_neg hne]
  · intro j hj ht hk
    have h' := poll_early_stop status j 30 0 hj (by simpa using ht)
      (fun k hkk => by simpa using hk k hkk)
    simpa using h'
  · intro hs
    rw [execute_query, if_pos hs]
  · intro hs
    rw [execute_query, if_neg hs]

theorem execute_query_poll_bounded_witness :
    (∀ j, j < 30 → ("RUNNING" : String) ∉ terminalStates) ∧
      pollChecks (fun _ => "RUNNING") 0 30 = 30 ∧
      execute_query (fun _ => "RUNNING") [[some "r"]] = [] := by
  refine ⟨by decide, ?_⟩
  exact (execute_query_poll_bounded (fun _ => "RUNNING") [[some "r"]]).2.1 (by decide)

end CloudResume
